import Mathlib

/-!
# Verification of the `build_id` crate

A shallow embedding of `src/lib.rs` of the `build_id` crate. The crate
computes a 128-bit identifier for the running binary:

* `calculate` seeds a streaming 64-bit hash (`twox_hash::XxHash` = XXH64)
  with the constant `0`, runs the fallback chain
  `from_header` → `from_exe` → (always) `from_type_id`, then formats the
  accumulator into 16 bytes (two successive 64-bit digests separated by a
  one-byte write) and stamps the RFC 4122 variant and the version-4 bits.
* `get` memoizes `calculate` behind a `Lazy` cell (`BUILD_ID`).

Machine integers are modelled as `Nat` reduced modulo `2 ^ 64` (`M64`);
byte streams are `List Nat` with each element used modulo 256.  The
process environment visible to the crate (executable-image readability
and content, and the four `TypeId` values hashed by `from_type_id`) is
the structure `Env`; `calculate` is a pure function of it.  A Rust panic
(the `unwrap` in `calculate`) is modelled as `Option.none`.
-/

namespace BuildId

/-- Constant `2 ^ 64`, the modulus of the 64-bit machine arithmetic. -/
def M64 : Nat := 18446744073709551616

/-- XXH64 prime 1. -/
def P1 : Nat := 11400714785074694791
/-- XXH64 prime 2. -/
def P2 : Nat := 14029467366897019727
/-- XXH64 prime 3. -/
def P3 : Nat := 1609587929392839161
/-- XXH64 prime 4. -/
def P4 : Nat := 9650029242287828579
/-- XXH64 prime 5. -/
def P5 : Nat := 2870177450012600261

/-- 64-bit left rotation (arguments already reduced modulo `M64`). -/
def rotl64 (x n : Nat) : Nat :=
  (((x % M64) <<< n) % M64) ||| ((x % M64) >>> (64 - n))

/-- The XXH64 lane round: `rotl(acc + input * PRIME2, 31) * PRIME1`. -/
def xxRound (acc input : Nat) : Nat :=
  rotl64 ((acc + input * P2) % M64) 31 * P1 % M64

/-- Little-endian value of the first 8 bytes of a byte list
(`byteorder::NativeEndian` on the little-endian targets the crate runs on). -/
def u64le (bs : List Nat) : Nat :=
  (bs.take 8).foldr (fun b acc => acc * 256 + b % 256) 0

/-- Little-endian value of the first 4 bytes of a byte list. -/
def u32le (bs : List Nat) : Nat :=
  (bs.take 4).foldr (fun b acc => acc * 256 + b % 256) 0

/-- The four running lanes `v1 .. v4` of the streaming XXH64 state. -/
structure XxCore where
  v1 : Nat
  v2 : Nat
  v3 : Nat
  v4 : Nat
deriving Repr, DecidableEq

/-- Consume one aligned 32-byte stripe into the four lanes. -/
def oneStripe (v : XxCore) (bs : List Nat) : XxCore :=
  { v1 := xxRound v.v1 (u64le bs)
    v2 := xxRound v.v2 (u64le (bs.drop 8))
    v3 := xxRound v.v3 (u64le (bs.drop 16))
    v4 := xxRound v.v4 (u64le (bs.drop 24)) }

/-- Consume `n` successive 32-byte stripes from the front of the buffer. -/
def stripeRoundsN : Nat → XxCore → List Nat → XxCore × List Nat
  | 0, v, bs => (v, bs)
  | n + 1, v, bs => stripeRoundsN n (oneStripe v bs) (bs.drop 32)

/-- Greedily consume 32-byte stripes from the front of the buffer,
returning the advanced lanes and the unconsumed tail (< 32 bytes). -/
def stripeRounds (v : XxCore) (bs : List Nat) : XxCore × List Nat :=
  stripeRoundsN (bs.length / 32) v bs

/-- The full streaming XXH64 state (`twox_hash::XxHash`): byte count,
lanes, and the buffered unconsumed tail of the stream. -/
structure XxState where
  totalLen : Nat
  core : XxCore
  mem : List Nat
deriving Repr, DecidableEq

/-- Rust `XxHash::with_seed`: the freshly seeded accumulator. -/
def xxInit (seed : Nat) : XxState :=
  { totalLen := 0
    core :=
      { v1 := (seed + P1 + P2) % M64
        v2 := (seed + P2) % M64
        v3 := seed % M64
        v4 := (M64 + seed - P1 % M64) % M64 }
    mem := [] }

/-- Rust `Hasher::write`: append the bytes to the stream and consume any
complete 32-byte stripes. -/
def xxWrite (s : XxState) (bs : List Nat) : XxState :=
  { totalLen := s.totalLen + bs.length
    core := (stripeRounds s.core (s.mem ++ bs)).1
    mem := (stripeRounds s.core (s.mem ++ bs)).2 }

/-- One tail step over an 8-byte word in `Hasher::finish`. -/
def finishStep8 (h k : Nat) : Nat :=
  rotl64 (h ^^^ xxRound 0 k) 27 * P1 % M64 + P4

/-- Consume `n` successive 8-byte words of the buffered tail in
`Hasher::finish`. -/
def finishEightsN : Nat → Nat → List Nat → Nat × List Nat
  | 0, h, bs => (h, bs)
  | n + 1, h, bs => finishEightsN n (finishStep8 h (u64le bs) % M64) (bs.drop 8)

/-- Process the (< 32 byte) buffered tail: 8-byte words, then at most one
4-byte word, then single bytes. -/
def finishTail (h : Nat) (bs : List Nat) : Nat :=
  let p := finishEightsN (bs.length / 8) h bs
  let h4 :=
    if 4 ≤ p.2.length then
      rotl64 (p.1 ^^^ (u32le p.2 * P1 % M64)) 23 * P2 % M64 + P3
    else p.1
  (p.2.drop (4 * (p.2.length / 4))).foldl
    (fun acc b => rotl64 ((acc % M64) ^^^ (b % 256 * P5 % M64)) 11 * P1 % M64)
    (h4 % M64)

/-- The XXH64 final avalanche. -/
def avalanche (h : Nat) : Nat :=
  let h1 := (h % M64) ^^^ ((h % M64) >>> 33)
  let h2 := h1 * P2 % M64
  let h3 := h2 ^^^ (h2 >>> 29)
  let h4 := h3 * P3 % M64
  h4 ^^^ (h4 >>> 32)

/-- Rust `Hasher::finish`: the 64-bit digest of the current accumulator state
(does not advance the state). -/
def xxFinish (s : XxState) : Nat :=
  let h0 :=
    if 32 ≤ s.totalLen then
      let m := (rotl64 s.core.v1 1 + rotl64 s.core.v2 7 +
                rotl64 s.core.v3 12 + rotl64 s.core.v4 18) % M64
      let m1 := ((m ^^^ xxRound 0 s.core.v1) * P1 + P4) % M64
      let m2 := ((m1 ^^^ xxRound 0 s.core.v2) * P1 + P4) % M64
      let m3 := ((m2 ^^^ xxRound 0 s.core.v3) * P1 + P4) % M64
      ((m3 ^^^ xxRound 0 s.core.v4) * P1 + P4) % M64
    else
      (s.core.v3 + P5) % M64
  avalanche (finishTail ((h0 + s.totalLen) % M64) s.mem)

/-- The 8 little-endian bytes of a 64-bit value
(`byteorder::NativeEndian::write_u64` on a little-endian target, and the
byte stream produced by `Hasher::write_u64`). -/
def le64 (n : Nat) : List Nat :=
  [n % 256, n / 256 % 256, n / 65536 % 256, n / 16777216 % 256,
   n / 4294967296 % 256, n / 1099511627776 % 256,
   n / 281474976710656 % 256, n / 72057594037927936 % 256]

/-- How stage 2 (`from_exe`) sees the running executable image. -/
inductive ExeAccess
  /-- No addressable executable file: `palaver::env::exe()` fails, or the
  target is `wasm32`, or the build runs under miri. -/
  | unavailable : ExeAccess
  /-- The file opens but `io::copy` fails partway, after having streamed
  `pre` into (a copy of) the accumulator. -/
  | failsAfter (pre : List Nat) : ExeAccess
  /-- The full byte content `bs` of the executable is readable. -/
  | readable (bs : List Nat) : ExeAccess
deriving Repr, DecidableEq

/-- The process environment that the calculation of the crate depends on: the
executable image, and the four type-identity values hashed by
`from_type_id` (`TypeId` of `()`, of `u8`, and of the two closure types,
each hashed as a 64-bit value). No process arguments, time, or randomness
appear. -/
structure Env where
  exe : ExeAccess
  tidUnit : Nat
  tidU8 : Nat
  tidFnA : Nat
  tidFnB : Nat
deriving Repr, DecidableEq

/-- Rust `HashWriter::write`: feeds the whole buffer to the hasher and reports
the full buffer length as written; never errors. -/
def hashWriterWrite (s : XxState) (buf : List Nat) : Except Unit (XxState × Nat) :=
  Except.ok (xxWrite s buf, buf.length)

/-- The copy loop of `io::copy`, with explicit fuel (each iteration
consumes at least one byte, so `bs.length` rounds always suffice). -/
def ioCopyN : Nat → Nat → List Nat → XxState → XxState
  | 0, _, _, s => s
  | fuel + 1, chunk, bs, s =>
    match bs with
    | [] => s
    | b :: rest =>
      match hashWriterWrite s (b :: rest.take chunk) with
      | Except.ok (s', _) => ioCopyN fuel chunk (rest.drop chunk) s'
      | Except.error _ => s

/-- Rust `io::copy` from the executable file into `HashWriter`: repeatedly
reads a chunk of at most `chunk + 1` bytes and writes it to the sink. -/
def ioCopy (chunk : Nat) (bs : List Nat) (s : XxState) : XxState :=
  ioCopyN bs.length chunk bs s

/-- Rust `from_header`: look for a linker-inserted build id. The crate leaves
this unimplemented: it returns `Err(())` unconditionally. -/
def from_header (_hasher : XxState) : Except Unit XxState :=
  Except.error ()

/-- Rust `from_exe`: resolve and open the running executable and stream its
full content into the hasher via `io::copy` (8192-byte chunks); on any
failure the partially-written copy of the hasher is dropped and `Err(())`
is returned. -/
def from_exe (env : Env) (hasher : XxState) : Except Unit XxState :=
  match env.exe with
  | ExeAccess.unavailable => Except.error ()
  | ExeAccess.failsAfter _ => Except.error ()
  | ExeAccess.readable bs => Except.ok (ioCopy 8191 bs hasher)

/-- The state updates of `from_type_id`: hash the four type-identity
values, each as its 8 native-endian bytes. -/
def typeIdRun (env : Env) (hasher : XxState) : XxState :=
  xxWrite (xxWrite (xxWrite (xxWrite hasher
    (le64 env.tidUnit)) (le64 env.tidU8)) (le64 env.tidFnA)) (le64 env.tidFnB)

/-- Rust `from_type_id`: always succeeds, returning the advanced hasher. -/
def from_type_id (env : Env) (hasher : XxState) : Except Unit XxState :=
  Except.ok (typeIdRun env hasher)

/-- Rust `uuid::Builder::with_variant(Variant::RFC4122)`:
`bytes[8] = (bytes[8] & 0x3f) | 0x80`. -/
def withVariantRFC4122 (bytes : List Nat) : List Nat :=
  bytes.set 8 ((bytes.getD 8 0 &&& 63) ||| 128)

/-- Rust `uuid::Builder::with_version(Version::Random)`:
`bytes[6] = (bytes[6] & 0x0f) | (4 << 4)`. -/
def withVersion4 (bytes : List Nat) : List Nat :=
  bytes.set 6 ((bytes.getD 6 0 &&& 15) ||| 64)

/-- The final formatting step of `calculate`: stamp the RFC 4122 variant
bits and then the version-4 bits onto the 16-byte buffer. -/
def variantVersionFormat (bytes : List Nat) : List Nat :=
  withVersion4 (withVariantRFC4122 bytes)

/-- The 16-byte buffer built by `calculate` from the accumulator: first
digest into bytes 0..8, one discriminator byte `0` written into the
accumulator, second digest into bytes 8..16, then the variant and version
bits. -/
def formatUuid (hasher : XxState) : List Nat :=
  variantVersionFormat (le64 (xxFinish hasher) ++ le64 (xxFinish (xxWrite hasher [0])))

/-- Rust `calculate` generalized with an explicit hash seed; the crate instantiates it at
seed 0. A Rust panic (the `unwrap`) is modelled as `none`. -/
def calcWithSeed (seed : Nat) (env : Env) : Option (List Nat) :=
  let hasher := xxInit seed
  let hasher1 :=
    match from_header hasher with
    | Except.ok h => h
    | Except.error _ =>
      match from_exe env hasher with
      | Except.ok h => h
      | Except.error _ => hasher
  match from_type_id env hasher1 with
  | Except.ok h => some (formatUuid h)
  | Except.error _ => none

/-- Rust `calculate`: the identifier computation of the crate, seeded with the
fixed constant 0. -/
def calculate (env : Env) : Option (List Nat) :=
  calcWithSeed 0 env

/-- The accumulator selected by the primary fallback chain
(`from_header(hasher).or_else(|()| from_exe(hasher)).unwrap_or(hasher)`). -/
def primarySel (env : Env) : XxState :=
  match from_header (xxInit 0) with
  | Except.ok h => h
  | Except.error _ =>
    match from_exe env (xxInit 0) with
    | Except.ok h => h
    | Except.error _ => xxInit 0

/-- The memoized accessor `get` reading the `Lazy` cell `BUILD_ID`:
the cache state is `none` before first use, `some v` afterwards. Returns
the observed value together with the new cache state. -/
def get (env : Env) (cache : Option (List Nat)) :
    Option (List Nat) × Option (List Nat) :=
  match cache with
  | some v => (some v, some v)
  | none => (calculate env, calculate env)

/-- Number of set bits among the low 8 bits of a byte. -/
def popCount8 (n : Nat) : Nat :=
  n % 2 + n / 2 % 2 + n / 4 % 2 + n / 8 % 2 +
  n / 16 % 2 + n / 32 % 2 + n / 64 % 2 + n / 128 % 2

/-- Number of bit positions at which two byte strings differ. -/
def diffBits (xs ys : List Nat) : Nat :=
  (List.zipWith (fun a b => popCount8 ((a % 256) ^^^ (b % 256))) xs ys).sum

/-- The variant/version well-formedness of a 16-byte identifier: byte 8
carries the RFC 4122 variant bits `10` and byte 6 the version nibble
`0100`. -/
def validUuidFormat (u : List Nat) : Prop :=
  u.length = 16 ∧ u.getD 8 0 / 64 = 2 ∧ u.getD 6 0 / 16 = 4

instance (u : List Nat) : Decidable (validUuidFormat u) := by
  unfold validUuidFormat
  infer_instance

/-! ## Helper lemmas on the streaming hash -/

theorem u64le_append (x y : List Nat) (h : 8 ≤ x.length) :
    u64le (x ++ y) = u64le x := by
  unfold u64le
  rw [List.take_append_of_le_length (by omega)]

theorem oneStripe_append (v : XxCore) (x y : List Nat) (h : 32 ≤ x.length) :
    oneStripe v (x ++ y) = oneStripe v x := by
  have h8 : (x ++ y).drop 8 = x.drop 8 ++ y :=
    List.drop_append_of_le_length (by omega)
  have h16 : (x ++ y).drop 16 = x.drop 16 ++ y :=
    List.drop_append_of_le_length (by omega)
  have h24 : (x ++ y).drop 24 = x.drop 24 ++ y :=
    List.drop_append_of_le_length (by omega)
  unfold oneStripe
  rw [h8, h16, h24, u64le_append x y (by omega),
      u64le_append (x.drop 8) y (by simp only [List.length_drop]; omega),
      u64le_append (x.drop 16) y (by simp only [List.length_drop]; omega),
      u64le_append (x.drop 24) y (by simp only [List.length_drop]; omega)]

theorem stripeRounds_step (v : XxCore) (bs : List Nat) :
    stripeRounds v bs =
      if 32 ≤ bs.length then stripeRounds (oneStripe v bs) (bs.drop 32)
      else (v, bs) := by
  by_cases h : 32 ≤ bs.length
  · rw [if_pos h]
    unfold stripeRounds
    have hlen : (bs.drop 32).length = bs.length - 32 := by simp
    have hdiv : bs.length / 32 = (bs.drop 32).length / 32 + 1 := by
      rw [hlen]; omega
    rw [hdiv]
    rfl
  · rw [if_neg h]
    unfold stripeRounds
    have hdiv : bs.length / 32 = 0 := by omega
    rw [hdiv]
    rfl

theorem stripeRoundsN_snd (n : Nat) : ∀ (v : XxCore) (bs : List Nat),
    (stripeRoundsN n v bs).2 = bs.drop (32 * n) := by
  induction n with
  | zero => intro v bs; rfl
  | succ n ih =>
    intro v bs
    show (stripeRoundsN n (oneStripe v bs) (bs.drop 32)).2 = _
    rw [ih, List.drop_drop]
    congr 1
    ring

theorem stripeRounds_snd_lt (v : XxCore) (bs : List Nat) :
    (stripeRounds v bs).2.length < 32 := by
  unfold stripeRounds
  rw [stripeRoundsN_snd]
  simp only [List.length_drop]
  omega

theorem stripeRounds_append (v : XxCore) (x y : List Nat) :
    stripeRounds v (x ++ y) =
      stripeRounds (stripeRounds v x).1 ((stripeRounds v x).2 ++ y) := by
  have main : ∀ (n : Nat) (x : List Nat), x.length ≤ n → ∀ (v : XxCore),
      stripeRounds v (x ++ y) =
        stripeRounds (stripeRounds v x).1 ((stripeRounds v x).2 ++ y) := by
    intro n
    induction n with
    | zero =>
      intro x hx v
      have hnil : x = [] := List.eq_nil_of_length_eq_zero (by omega)
      subst hnil
      rw [stripeRounds_step v [], if_neg (by simp)]
    | succ n ih =>
      intro x hx v
      by_cases h : 32 ≤ x.length
      · have hxy : 32 ≤ (x ++ y).length := by simp; omega
        rw [stripeRounds_step v (x ++ y), if_pos hxy,
            oneStripe_append v x y h,
            List.drop_append_of_le_length (by omega),
            stripeRounds_step v x, if_pos h]
        exact ih (x.drop 32) (by simp; omega) (oneStripe v x)
      · rw [stripeRounds_step v x, if_neg h]
  exact main x.length x le_rfl v

theorem xxWrite_append (s : XxState) (a b : List Nat) :
    xxWrite (xxWrite s a) b = xxWrite s (a ++ b) := by
  unfold xxWrite
  rw [← List.append_assoc, stripeRounds_append s.core (s.mem ++ a) b]
  simp only [XxState.mk.injEq, List.length_append, and_true, true_and]
  omega

theorem xxWrite_mem_lt (s : XxState) (bs : List Nat) :
    (xxWrite s bs).mem.length < 32 :=
  stripeRounds_snd_lt s.core (s.mem ++ bs)

theorem xxWrite_nil (s : XxState) (h : s.mem.length < 32) :
    xxWrite s [] = s := by
  unfold xxWrite
  rw [List.append_nil, stripeRounds_step, if_neg (by omega)]
  simp

theorem ioCopyN_eq_xxWrite (f : Nat) : ∀ (c : Nat) (bs : List Nat),
    bs.length ≤ f → ∀ (s : XxState), s.mem.length < 32 →
    ioCopyN f c bs s = xxWrite s bs := by
  induction f with
  | zero =>
    intro c bs hbs s hs
    have hnil : bs = [] := List.eq_nil_of_length_eq_zero (by omega)
    subst hnil
    exact (xxWrite_nil s hs).symm
  | succ f ih =>
    intro c bs hbs s hs
    match bs with
    | [] => exact (xxWrite_nil s hs).symm
    | b :: rest =>
      show ioCopyN f c (rest.drop c) (xxWrite s (b :: rest.take c)) = _
      rw [ih c (rest.drop c) (by simp at hbs ⊢; omega)
            (xxWrite s (b :: rest.take c)) (xxWrite_mem_lt s _),
          xxWrite_append]
      congr 1
      rw [List.cons_append, List.take_append_drop]

theorem ioCopy_eq_xxWrite (c : Nat) (bs : List Nat) (s : XxState)
    (h : s.mem.length < 32) : ioCopy c bs s = xxWrite s bs :=
  ioCopyN_eq_xxWrite bs.length c bs le_rfl s h

/-! ## Helper lemmas on the identifier format -/

theorem lor128_div64 : ∀ x < 64, (x ||| 128) / 64 = 2 := by decide

theorem lor64_div16 : ∀ x < 16, (x ||| 64) / 16 = 4 := by decide

theorem and63_lt (b : Nat) : b &&& 63 < 64 :=
  Nat.lt_succ_of_le (Nat.and_le_right)

theorem and15_lt (b : Nat) : b &&& 15 < 16 :=
  Nat.lt_succ_of_le (Nat.and_le_right)

set_option maxRecDepth 100000 in
theorem lor64_mod16 : ∀ b < 256, ((b &&& 15) ||| 64) % 16 = b % 16 := by decide

set_option maxRecDepth 100000 in
theorem lor128_mod64 : ∀ b < 256, ((b &&& 63) ||| 128) % 64 = b % 64 := by decide

theorem variantVersionFormat_getD8 (bs : List Nat) (h : bs.length = 16) :
    (variantVersionFormat bs).getD 8 0 = (bs.getD 8 0 &&& 63) ||| 128 := by
  unfold variantVersionFormat withVersion4 withVariantRFC4122
  simp only [List.getD, List.get?_eq_getElem?,
    List.getElem?_set_ne (by omega : (6 : Nat) ≠ 8)]
  rw [List.getElem?_set_self (by simp [h])]
  rfl

theorem variantVersionFormat_getD6 (bs : List Nat) (h : bs.length = 16) :
    (variantVersionFormat bs).getD 6 0 = (bs.getD 6 0 &&& 15) ||| 64 := by
  unfold variantVersionFormat withVersion4 withVariantRFC4122
  simp only [List.getD, List.get?_eq_getElem?]
  rw [List.getElem?_set_self (by simp [h])]
  simp only [Option.getD_some]
  congr 2
  simp only [List.getElem?_set_ne (by omega : (8 : Nat) ≠ 6)]

theorem variantVersionFormat_getD_other (bs : List Nat) (i : Nat)
    (h6 : i ≠ 6) (h8 : i ≠ 8) :
    (variantVersionFormat bs).getD i 0 = bs.getD i 0 := by
  unfold variantVersionFormat withVersion4 withVariantRFC4122
  simp only [List.getD, List.get?_eq_getElem?,
    List.getElem?_set_ne (Ne.symm h6), List.getElem?_set_ne (Ne.symm h8)]

theorem variantVersionFormat_length (bs : List Nat) :
    (variantVersionFormat bs).length = bs.length := by
  simp [variantVersionFormat, withVersion4, withVariantRFC4122]

theorem variantVersionFormat_valid (bs : List Nat) (h : bs.length = 16) :
    validUuidFormat (variantVersionFormat bs) := by
  refine ⟨by rw [variantVersionFormat_length, h], ?_, ?_⟩
  · rw [variantVersionFormat_getD8 bs h]
    exact lor128_div64 _ (and63_lt _)
  · rw [variantVersionFormat_getD6 bs h]
    exact lor64_div16 _ (and15_lt _)

theorem le64_length (n : Nat) : (le64 n).length = 8 := rfl

theorem formatUuid_valid (s : XxState) : validUuidFormat (formatUuid s) :=
  variantVersionFormat_valid _ (by simp [le64])

theorem calculate_eq_format (env : Env) :
    calculate env = some (formatUuid (typeIdRun env (primarySel env))) := by
  rcases env with ⟨exe, t1, t2, t3, t4⟩
  cases exe <;> rfl

/-! ## The claims -/

/-- C1: the identifier calculation is deterministic — two runs in the same
environment (same executable-image access and content, same type-identity
values) produce bit-identical results, and the calculation is the seed-0
instance of the hash (`XxHash::with_seed(0)`); no process arguments, time
or randomness enter `calculate`, which is a pure function of `Env`. -/
theorem calculate_deterministic (e₁ e₂ : Env)
    (hexe : e₁.exe = e₂.exe) (hu : e₁.tidUnit = e₂.tidUnit)
    (h8 : e₁.tidU8 = e₂.tidU8) (ha : e₁.tidFnA = e₂.tidFnA)
    (hb : e₁.tidFnB = e₂.tidFnB) :
    calculate e₁ = calculate e₂ ∧ calculate e₁ = calcWithSeed 0 e₁ := by
  rcases e₁ with ⟨x1, x2, x3, x4, x5⟩
  rcases e₂ with ⟨y1, y2, y3, y4, y5⟩
  simp only at hexe hu h8 ha hb
  subst hexe; subst hu; subst h8; subst ha; subst hb
  exact ⟨rfl, rfl⟩

/-- C1 witness: two runs in a concrete environment agree. -/
theorem calculate_deterministic_witness :
    calculate { exe := ExeAccess.unavailable, tidUnit := 1, tidU8 := 2,
                tidFnA := 3, tidFnB := 4 } =
      calculate { exe := ExeAccess.unavailable, tidUnit := 1, tidU8 := 2,
                  tidFnA := 3, tidFnB := 4 } ∧
    calculate { exe := ExeAccess.unavailable, tidUnit := 1, tidU8 := 2,
                tidFnA := 3, tidFnB := 4 } =
      calcWithSeed 0 { exe := ExeAccess.unavailable, tidUnit := 1, tidU8 := 2,
                       tidFnA := 3, tidFnB := 4 } :=
  calculate_deterministic _ _ rfl rfl rfl rfl rfl

/-- C2: the formatter takes the accumulator left by the source-selection
stages, writes its first 64-bit digest (as 8 little-endian bytes) into
bytes 0..8, writes the discriminator byte 0 into the accumulator, writes
the second digest of the advanced accumulator into bytes 8..16, and
finally overwrites the RFC 4122 variant bits and then the version bits. -/
theorem calculate_two_digest_format (env : Env) :
    calculate env =
      some (withVersion4 (withVariantRFC4122
        (le64 (xxFinish (typeIdRun env (primarySel env))) ++
         le64 (xxFinish (xxWrite (typeIdRun env (primarySel env)) [0]))))) ∧
    (le64 (xxFinish (typeIdRun env (primarySel env)))).length = 8 ∧
    (le64 (xxFinish (xxWrite (typeIdRun env (primarySel env)) [0]))).length = 8 := by
  refine ⟨?_, rfl, rfl⟩
  rcases env with ⟨exe, t1, t2, t3, t4⟩
  cases exe <;> rfl

/-- C7: stage 1 is an unimplemented stub — `from_header` returns `Err(())`
unconditionally, for every accumulator state, so a present and readable
platform build-id is never read, contradicting the own rustdoc of the crate
("looks first for linker-inserted build ID / binary UUIDs"). -/
theorem from_header_always_fails (h : XxState) :
    from_header h = Except.error () := rfl

/-- C5: the selector runs `from_header` first (it always fails), then
`from_exe` on a fresh copy of the seeded accumulator, and the
type-identity stage always runs on the selected accumulator and is always
combined into the result; at most one primary stage contributes: the
selected accumulator is the fresh seed when the executable is not fully
readable, and the full-content hash when it is. -/
theorem fallback_chain_order (env : Env) :
    calculate env = some (formatUuid (typeIdRun env (primarySel env))) ∧
    from_header (xxInit 0) = Except.error () ∧
    (env.exe = ExeAccess.unavailable → primarySel env = xxInit 0) ∧
    (∀ pre, env.exe = ExeAccess.failsAfter pre → primarySel env = xxInit 0) ∧
    (∀ bs, env.exe = ExeAccess.readable bs →
      primarySel env = xxWrite (xxInit 0) bs) := by
  refine ⟨calculate_eq_format env, rfl, ?_, ?_, ?_⟩
  · intro h
    simp [primarySel, from_header, from_exe, h]
  · intro pre h
    simp [primarySel, from_header, from_exe, h]
  · intro bs h
    simp only [primarySel, from_header, from_exe, h]
    exact ioCopy_eq_xxWrite 8191 bs (xxInit 0) (by simp [xxInit])

/-- C5 witness: the chain at a concrete readable executable. -/
theorem fallback_chain_order_witness :
    primarySel { exe := ExeAccess.readable [10, 20, 30], tidUnit := 1,
                 tidU8 := 2, tidFnA := 3, tidFnB := 4 } =
      xxWrite (xxInit 0) [10, 20, 30] ∧
    primarySel { exe := ExeAccess.unavailable, tidUnit := 1, tidU8 := 2,
                 tidFnA := 3, tidFnB := 4 } = xxInit 0 :=
  ⟨(fallback_chain_order _).2.2.2.2 [10, 20, 30] rfl,
   (fallback_chain_order _).2.2.1 rfl⟩

/-- C10: a failing stage leaves the accumulator unobservably unchanged:
the accumulator reaching the type-identity stage is either the successful
primary stage full-content hash or the untouched freshly seeded
accumulator, and the identifier computed when the executable read fails
partway is independent of the partial prefix that was streamed before the
failure. -/
theorem failed_stage_leaves_accumulator :
    (∀ env : Env,
      calculate env = some (formatUuid (typeIdRun env (primarySel env))) ∧
      ((from_exe env (xxInit 0)).isOk = false → primarySel env = xxInit 0) ∧
      ((from_exe env (xxInit 0)).isOk = true →
        ∃ bs, env.exe = ExeAccess.readable bs ∧
          primarySel env = xxWrite (xxInit 0) bs)) ∧
    (∀ (pre pre' : List Nat) (t1 t2 t3 t4 : Nat),
      calculate { exe := ExeAccess.failsAfter pre, tidUnit := t1, tidU8 := t2,
                  tidFnA := t3, tidFnB := t4 } =
        calculate { exe := ExeAccess.failsAfter pre', tidUnit := t1,
                    tidU8 := t2, tidFnA := t3, tidFnB := t4 }) := by
  constructor
  · intro env
    refine ⟨calculate_eq_format env, ?_, ?_⟩
    · intro h
      rcases henv : env.exe with _ | pre | bs
      · simp [primarySel, from_header, from_exe, henv]
      · simp [primarySel, from_header, from_exe, henv]
      · rw [from_exe, henv] at h
        simp [Except.isOk, Except.toBool] at h
    · intro h
      rcases henv : env.exe with _ | pre | bs
      · rw [from_exe, henv] at h; simp [Except.isOk, Except.toBool] at h
      · rw [from_exe, henv] at h; simp [Except.isOk, Except.toBool] at h
      · refine ⟨bs, rfl, ?_⟩
        simp only [primarySel, from_header, from_exe, henv]
        exact ioCopy_eq_xxWrite 8191 bs (xxInit 0) (by simp [xxInit])
  · intro pre pre' t1 t2 t3 t4
    rfl

/-- C3: every identifier the calculation returns — and hence the accessor
on first use — carries the RFC 4122 variant bits (byte 8 starts `10`) and
the version-4 bits (byte 6 starts `0100`), whichever fallback stage
supplied the entropy. -/
theorem calculate_format_valid (env : Env) :
    (∀ u, calculate env = some u → validUuidFormat u) ∧
    (∀ u, (get env none).1 = some u → validUuidFormat u) := by
  have hmain : ∀ u, calculate env = some u → validUuidFormat u := by
    intro u hu
    rw [calculate_eq_format env] at hu
    exact Option.some.inj hu ▸ formatUuid_valid _
  exact ⟨hmain, hmain⟩

set_option maxRecDepth 1000000 in
/-- C3 witness: the identifier computed in a concrete environment without
a readable executable is correctly formatted. -/
theorem calculate_format_valid_witness :
    validUuidFormat
      [109, 158, 102, 79, 160, 89, 72, 115, 137, 9, 182, 96, 150, 191, 183, 187] :=
  (calculate_format_valid
    { exe := ExeAccess.unavailable, tidUnit := 1, tidU8 := 2,
      tidFnA := 3, tidFnB := 4 }).1 _ (by decide)

/-- C4: the calculation is total: `from_type_id` always returns `Ok` (so
the `unwrap` in `calculate` never hits its error branch), and for every
environment — including those where both stage 1 and stage 2 fail —
`calculate` returns (no panic) a well-formatted identifier. -/
theorem calculate_total_never_panics (env : Env) (h : XxState) :
    (from_type_id env h).isOk = true ∧
    ∃ u, calculate env = some u ∧ validUuidFormat u :=
  ⟨rfl, formatUuid (typeIdRun env (primarySel env)),
    calculate_eq_format env, formatUuid_valid _⟩

/-- C6: the accessor is a memoized refinement of the calculation: under
the cache invariant (cache empty or holding the calculated value), `get`
returns exactly what `calculate` returns, and three successive `get`
calls observe the same value. -/
theorem get_memoizes_calculate (env : Env) (s : Option (List Nat))
    (hs : s = none ∨ s = calculate env) :
    (get env s).1 = calculate env ∧
    (get env (get env s).2).1 = (get env s).1 ∧
    (get env (get env (get env s).2).2).1 = (get env s).1 := by
  rcases hs with h | h <;> subst h
  · cases hc : calculate env with
    | none => simp [get, hc]
    | some u => simp [get, hc]
  · cases hc : calculate env with
    | none => simp [get, hc]
    | some u => simp [get, hc]

/-- C6 witness: the accessor starting from the empty cache in a concrete
environment. -/
theorem get_memoizes_calculate_witness :
    (get { exe := ExeAccess.unavailable, tidUnit := 1, tidU8 := 2,
           tidFnA := 3, tidFnB := 4 } none).1 =
      calculate { exe := ExeAccess.unavailable, tidUnit := 1, tidU8 := 2,
                  tidFnA := 3, tidFnB := 4 } ∧
    (get { exe := ExeAccess.unavailable, tidUnit := 1, tidU8 := 2,
           tidFnA := 3, tidFnB := 4 }
       (get { exe := ExeAccess.unavailable, tidUnit := 1, tidU8 := 2,
              tidFnA := 3, tidFnB := 4 } none).2).1 =
      (get { exe := ExeAccess.unavailable, tidUnit := 1, tidU8 := 2,
             tidFnA := 3, tidFnB := 4 } none).1 ∧
    (get { exe := ExeAccess.unavailable, tidUnit := 1, tidU8 := 2,
           tidFnA := 3, tidFnB := 4 }
       (get { exe := ExeAccess.unavailable, tidUnit := 1, tidU8 := 2,
              tidFnA := 3, tidFnB := 4 }
          (get { exe := ExeAccess.unavailable, tidUnit := 1, tidU8 := 2,
                 tidFnA := 3, tidFnB := 4 } none).2).2).1 =
      (get { exe := ExeAccess.unavailable, tidUnit := 1, tidU8 := 2,
             tidFnA := 3, tidFnB := 4 } none).1 :=
  get_memoizes_calculate _ none (Or.inl rfl)

/-- C9: the write sink consumes every buffer in full, reporting the full
length and never erroring; stage 2 succeeds exactly when the executable
is addressable and fully readable, and then streams the entire byte
content of the executable image into the hash accumulator. -/
theorem from_exe_streams_full_content (env : Env) (h : XxState) :
    (∀ (s : XxState) (buf : List Nat),
        hashWriterWrite s buf = Except.ok (xxWrite s buf, buf.length)) ∧
    ((from_exe env h).isOk = true ↔ ∃ bs, env.exe = ExeAccess.readable bs) ∧
    (∀ bs, env.exe = ExeAccess.readable bs → h.mem.length < 32 →
      from_exe env h = Except.ok (xxWrite h bs)) := by
  refine ⟨fun s buf => rfl, ?_, ?_⟩
  · constructor
    · intro hok
      rcases henv : env.exe with _ | pre | bs
      · rw [from_exe, henv] at hok; simp [Except.isOk, Except.toBool] at hok
      · rw [from_exe, henv] at hok; simp [Except.isOk, Except.toBool] at hok
      · exact ⟨bs, rfl⟩
    · rintro ⟨bs, henv⟩
      rw [from_exe, henv]
      rfl
  · intro bs henv hmem
    rw [from_exe, henv]
    show Except.ok (ioCopy 8191 bs h) = _
    rw [ioCopy_eq_xxWrite 8191 bs h hmem]

/-- C9 witness: stage 2 on a concrete 3-byte executable feeds exactly its
content into the fresh accumulator. -/
theorem from_exe_streams_full_content_witness :
    from_exe { exe := ExeAccess.readable [10, 20, 30], tidUnit := 1,
               tidU8 := 2, tidFnA := 3, tidFnB := 4 } (xxInit 0) =
      Except.ok (xxWrite (xxInit 0) [10, 20, 30]) :=
  (from_exe_streams_full_content _ (xxInit 0)).2.2 [10, 20, 30] rfl (by decide)

/-- C8 counterexample: the claim says at most 2 of the 128 bits are fixed
by the formatting step (126 taken unchanged), but on this concrete
16-byte buffer the formatting step changes 5 bit positions. -/
theorem variant_version_counterexample :
    2 < diffBits
      (variantVersionFormat [0, 0, 0, 0, 0, 0, 240, 0, 64, 0, 0, 0, 0, 0, 0, 0])
      [0, 0, 0, 0, 0, 0, 240, 0, 64, 0, 0, 0, 0, 0, 0, 0] := by decide

/-- C8 amended: the formatting step overwrites exactly two fixed bit
FIELDS totalling 6 bits — the 4-bit version field (high nibble of byte 6,
set to `0100`) and the 2-bit variant field (top two bits of byte 8, set
to `10`) — and the remaining 122 bits are taken unchanged from the digest
bytes; the returned identifier is exactly such a formatting of the two
digest bytes, which are all below 256. -/
theorem variant_version_six_fixed_bits (bs : List Nat) (hlen : bs.length = 16)
    (hbytes : ∀ b ∈ bs, b < 256) :
    (∀ i, i ≠ 6 → i ≠ 8 → (variantVersionFormat bs).getD i 0 = bs.getD i 0) ∧
    (variantVersionFormat bs).getD 6 0 % 16 = bs.getD 6 0 % 16 ∧
    (variantVersionFormat bs).getD 6 0 / 16 = 4 ∧
    (variantVersionFormat bs).getD 8 0 % 64 = bs.getD 8 0 % 64 ∧
    (variantVersionFormat bs).getD 8 0 / 64 = 2 ∧
    (∀ env : Env, calculate env =
      some (variantVersionFormat
        (le64 (xxFinish (typeIdRun env (primarySel env))) ++
         le64 (xxFinish (xxWrite (typeIdRun env (primarySel env)) [0]))))) ∧
    (∀ n : Nat, ∀ b ∈ le64 n, b < 256) := by
  have hb6 : bs.getD 6 0 < 256 := by
    apply hbytes
    have h6 : (6 : Nat) < bs.length := by omega
    simp [List.getD, List.getElem?_eq_getElem h6]
  have hb8 : bs.getD 8 0 < 256 := by
    apply hbytes
    have h8 : (8 : Nat) < bs.length := by omega
    simp [List.getD, List.getElem?_eq_getElem h8]
  refine ⟨fun i h6 h8 => variantVersionFormat_getD_other bs i h6 h8,
    ?_, ?_, ?_, ?_, fun env => calculate_eq_format env, ?_⟩
  · rw [variantVersionFormat_getD6 bs hlen]
    exact lor64_mod16 _ hb6
  · rw [variantVersionFormat_getD6 bs hlen]
    exact lor64_div16 _ (and15_lt _)
  · rw [variantVersionFormat_getD8 bs hlen]
    exact lor128_mod64 _ hb8
  · rw [variantVersionFormat_getD8 bs hlen]
    exact lor128_div64 _ (and63_lt _)
  · intro n b hb
    simp only [le64, List.mem_cons, List.not_mem_nil, or_false] at hb
    rcases hb with rfl | rfl | rfl | rfl | rfl | rfl | rfl | rfl <;>
      exact Nat.mod_lt _ (by norm_num)

/-- C8 witness: the amended claim at the all-zero 16-byte buffer. -/
theorem variant_version_six_fixed_bits_witness :
    (variantVersionFormat (List.replicate 16 0)).getD 6 0 / 16 = 4 ∧
    (variantVersionFormat (List.replicate 16 0)).getD 8 0 / 64 = 2 :=
  ⟨(variant_version_six_fixed_bits (List.replicate 16 0) (by decide)
      (by decide)).2.2.1,
   (variant_version_six_fixed_bits (List.replicate 16 0) (by decide)
      (by decide)).2.2.2.2.1⟩

/-- C10 witness: at a concrete mid-read failure, the selected accumulator
is the untouched seed and the identifier ignores the partial prefix. -/
theorem failed_stage_leaves_accumulator_witness :
    primarySel { exe := ExeAccess.failsAfter [1, 2, 3], tidUnit := 1,
                 tidU8 := 2, tidFnA := 3, tidFnB := 4 } = xxInit 0 ∧
    calculate { exe := ExeAccess.failsAfter [1, 2, 3], tidUnit := 1,
                tidU8 := 2, tidFnA := 3, tidFnB := 4 } =
      calculate { exe := ExeAccess.failsAfter [9], tidUnit := 1, tidU8 := 2,
                  tidFnA := 3, tidFnB := 4 } :=
  ⟨((failed_stage_leaves_accumulator.1 _).2.1 rfl),
   failed_stage_leaves_accumulator.2 [1, 2, 3] [9] 1 2 3 4⟩

end BuildId
